import Mathlib

/-
Verification of the core decision-and-control engine of the Uniq agentic
browser (TypeScript sources).  The embedding below translates, function
by function, the parts of the source the verified properties are about:

  * agent/schemas.ts        : ActionSchema / DecisionSchema (Zod) over a
                              JSON value model (JVal, parseAction, parseDecision)
  * policy/guardrails.ts    : Guardrails.checkAction
  * agent/planner.ts        : heuristicPlan
  * browser/domTools.ts     : DOMTools.scanPage
  * agent/controller.ts     : AgentController.runLoop / decide

External effects (page reads, the LLM, randomUUID) are modelled as
oracle inputs supplied per loop iteration.  JavaScript numbers are
modelled as Rat; JavaScript strings as String (ASCII-relevant ops).
-/

namespace Uniq

/-! ## Basic string utilities (JS semantics) -/

/-- JS `String.prototype.startsWith` on char lists. -/
def startsWithL [DecidableEq α] : List α → List α → Bool
  | [], _ => true
  | _ :: _, [] => false
  | p :: ps, x :: xs => if p = x then startsWithL ps xs else false

/-- JS `String.prototype.includes` on char lists: `pat` occurs as a
contiguous sublist of the second argument. -/
def hasInfixL [DecidableEq α] (pat : List α) : List α → Bool
  | [] => startsWithL pat []
  | x :: xs => startsWithL pat (x :: xs) || hasInfixL pat xs

/-- JS `s.includes(pat)`. -/
def strContains (s pat : String) : Bool := hasInfixL pat.toList s.toList

/-- JS `s.startsWith(pat)`. -/
def strStarts (s pat : String) : Bool := startsWithL pat.toList s.toList

/-- JS `String.prototype.toLowerCase` (ASCII, as used by the source). -/
def lowerStr (s : String) : String := String.mk (s.toList.map Char.toLower)

/-- JS word character class `\w` = `[A-Za-z0-9_]`. -/
def isWordChar (c : Char) : Bool := c.isAlpha || c.isDigit || c = '_'

/-- Case-insensitive char comparison (ASCII). -/
def charCIEq (a b : Char) : Bool := a.toLower = b.toLower

/-- Case-insensitive `startsWith` on char lists. -/
def ciStarts : List Char → List Char → Bool
  | [], _ => true
  | _ :: _, [] => false
  | p :: ps, x :: xs => charCIEq p x && ciStarts ps xs

/-- JS `String.prototype.trim` on char lists. -/
def trimL (l : List Char) : List Char :=
  ((l.dropWhile Char.isWhitespace).reverse.dropWhile Char.isWhitespace).reverse

/-- Collapse every whitespace run to a single space: JS
`s.replace(/\s+/g, ' ')`.  The flag records whether the previous
character was whitespace. -/
def squashWsAux : Bool → List Char → List Char
  | _, [] => []
  | prevWs, c :: cs =>
    if c.isWhitespace then
      if prevWs then squashWsAux true cs else ' ' :: squashWsAux true cs
    else c :: squashWsAux false cs

def squashWs (l : List Char) : List Char := squashWsAux false l

/-! ## Action grammar (agent/schemas.ts plus the controller-built SCROLL) -/

inductive ScrollDir where
  | up
  | down
deriving DecidableEq, Repr

/-- Role literals accepted by the Zod enums in `DOM_CLICK`/`DOM_FILL`. -/
inductive RoleClick where
  | button
  | link
  | textbox
  | checkbox
  | radio
deriving DecidableEq, Repr

/-- The tagged action sum.  The first nine constructors are the nine
`ActionSchema` variants of agent/schemas.ts, in source order; `SCROLL`
is the tenth variant of the spec grammar, constructed by the controller
(auto-scroll `lastAction`, heuristic ladder) but absent from the Zod
union. -/
inductive Action where
  | VISION_CLICK (regionId : String) (description : Option String)
  | DOM_CLICK (regionId selector name description : Option String) (role : Option RoleClick)
  | DOM_FILL (regionId selector name description : Option String) (value : String)
      (role : Option RoleClick)
  | WAIT (duration : Option Rat) (untilState : Option String) (description : Option String)
  | ASK_USER (message : String) (actionId : Option String)
  | CONFIRM (message : String) (actionId : Option String)
  | DONE (reason : Option String)
  | VISION_FILL (regionId : String) (value : String) (description : Option String)
  | KEY_PRESS (key : String) (regionId : Option String) (description : Option String)
  | SCROLL (direction : ScrollDir) (amount : Option Rat) (description : Option String)
deriving DecidableEq, Repr

/-- The `type` discriminator string of an action value. -/
def Action.typeName : Action → String
  | .VISION_CLICK .. => "VISION_CLICK"
  | .DOM_CLICK .. => "DOM_CLICK"
  | .DOM_FILL .. => "DOM_FILL"
  | .WAIT .. => "WAIT"
  | .ASK_USER .. => "ASK_USER"
  | .CONFIRM .. => "CONFIRM"
  | .DONE .. => "DONE"
  | .VISION_FILL .. => "VISION_FILL"
  | .KEY_PRESS .. => "KEY_PRESS"
  | .SCROLL .. => "SCROLL"

def Action.isSCROLL : Action → Bool
  | .SCROLL .. => true
  | _ => false

def Action.isVISION_CLICK : Action → Bool
  | .VISION_CLICK .. => true
  | _ => false

/-- The `Decision` record of agent/schemas.ts: action, reasoning, confidence. -/
structure Decision where
  action : Action
  reasoning : String
  confidence : Rat
deriving DecidableEq, Repr

/-! ## JSON values and the Zod schemas

`ActionSchema` is a `z.discriminatedUnion('type', ...)`; its validation
behaviour is embedded as a parser from a JSON value model.  Unknown keys
are ignored (Zod default); a missing or unrecognised `type` fails. -/

inductive JVal where
  | str (s : String)
  | num (q : Rat)
  | jbool (b : Bool)
  | jnull
  | arr (l : List JVal)
  | obj (fields : List (String × JVal))

def jfield (j : JVal) (k : String) : Option JVal :=
  match j with
  | .obj fields => fields.lookup k
  | _ => none

/-- Zod `z.string()` on a required field. -/
def reqStr (j : JVal) (k : String) : Option String :=
  match jfield j k with
  | some (.str s) => some s
  | _ => none

/-- Zod `z.string().optional()`: absent is fine, `null` is rejected. -/
def optStr (j : JVal) (k : String) : Option (Option String) :=
  match jfield j k with
  | none => some none
  | some (.str s) => some (some s)
  | some _ => none

/-- The source helper `zOptString = z.string().optional().nullable().transform(v => v ?? undefined)`:
absent and `null` both map to `undefined`. -/
def optNullStr (j : JVal) (k : String) : Option (Option String) :=
  match jfield j k with
  | none => some none
  | some .jnull => some none
  | some (.str s) => some (some s)
  | some _ => none

/-- Zod `z.number().optional()`. -/
def optNum (j : JVal) (k : String) : Option (Option Rat) :=
  match jfield j k with
  | none => some none
  | some (.num q) => some (some q)
  | some _ => none

def roleOfString : String → Option RoleClick
  | "button" => some .button
  | "link" => some .link
  | "textbox" => some .textbox
  | "checkbox" => some .checkbox
  | "radio" => some .radio
  | _ => none

/-- Zod `z.enum(allowed).optional()` over role literals. -/
def optRole (j : JVal) (k : String) (allowed : List RoleClick) : Option (Option RoleClick) :=
  match jfield j k with
  | none => some none
  | some (.str s) =>
    match roleOfString s with
    | some r => if r ∈ allowed then some (some r) else none
    | none => none
  | some _ => none

/-- Validation `ActionSchema.safeParse`, field for field from agent/schemas.ts.
There is no `SCROLL` branch: the Zod union has nine variants only. -/
def parseAction (j : JVal) : Option Action :=
  match jfield j "type" with
  | some (.str t) =>
    match t with
    | "VISION_CLICK" =>
      match reqStr j "regionId", optStr j "description" with
      | some rid, some d => some (.VISION_CLICK rid d)
      | _, _ => none
    | "DOM_CLICK" =>
      match optNullStr j "regionId", optNullStr j "selector", optNullStr j "name",
            optNullStr j "description",
            optRole j "role" [.button, .link, .textbox, .checkbox, .radio] with
      | some rid, some sel, some nm, some d, some role =>
        some (.DOM_CLICK rid sel nm d role)
      | _, _, _, _, _ => none
    | "DOM_FILL" =>
      match optNullStr j "regionId", optNullStr j "selector", optNullStr j "name",
            optNullStr j "description", reqStr j "value", optRole j "role" [.textbox] with
      | some rid, some sel, some nm, some d, some v, some role =>
        some (.DOM_FILL rid sel nm d v role)
      | _, _, _, _, _, _ => none
    | "WAIT" =>
      match optNum j "duration", optNullStr j "until", optNullStr j "description" with
      | some dur, some u, some d => some (.WAIT dur u d)
      | _, _, _ => none
    | "ASK_USER" =>
      match reqStr j "message", optStr j "actionId" with
      | some m, some aid => some (.ASK_USER m aid)
      | _, _ => none
    | "CONFIRM" =>
      match reqStr j "message", optStr j "actionId" with
      | some m, some aid => some (.CONFIRM m aid)
      | _, _ => none
    | "DONE" =>
      match optStr j "reason" with
      | some r => some (.DONE r)
      | none => none
    | "VISION_FILL" =>
      match reqStr j "regionId", reqStr j "value", optStr j "description" with
      | some rid, some v, some d => some (.VISION_FILL rid v d)
      | _, _, _ => none
    | "KEY_PRESS" =>
      match reqStr j "key", optStr j "regionId", optStr j "description" with
      | some k, some rid, some d => some (.KEY_PRESS k rid d)
      | _, _, _ => none
    | _ => none
  | _ => none

/-- Validation `DecisionSchema.safeParse`: action + reasoning + confidence in [0,1]. -/
def parseDecision (j : JVal) : Option Decision :=
  match jfield j "action" with
  | some aj =>
    match parseAction aj with
    | some a =>
      match reqStr j "reasoning", jfield j "confidence" with
      | some rs, some (.num q) =>
        if 0 ≤ q ∧ q ≤ 1 then some ⟨a, rs, q⟩ else none
      | _, _ => none
    | none => none
  | none => none

/-- Prepend an optional string field when present (JS objects omit
`undefined`-valued properties in the decision literals the code builds). -/
def consOptStr (k : String) (v : Option String) (rest : List (String × JVal)) :
    List (String × JVal) :=
  match v with
  | some s => (k, .str s) :: rest
  | none => rest

def consOptNum (k : String) (v : Option Rat) (rest : List (String × JVal)) :
    List (String × JVal) :=
  match v with
  | some q => (k, .num q) :: rest
  | none => rest

def roleString : RoleClick → String
  | .button => "button"
  | .link => "link"
  | .textbox => "textbox"
  | .checkbox => "checkbox"
  | .radio => "radio"

def consOptRole (k : String) (v : Option RoleClick) (rest : List (String × JVal)) :
    List (String × JVal) :=
  match v with
  | some r => (k, .str (roleString r)) :: rest
  | none => rest

/-- The runtime JSON shape of a typed action value (what
`DecisionSchema.safeParse` receives from the controller). -/
def encodeAction : Action → JVal
  | .VISION_CLICK rid d =>
    .obj (("type", .str "VISION_CLICK") :: ("regionId", .str rid) :: consOptStr "description" d [])
  | .DOM_CLICK rid sel nm d role =>
    .obj (("type", .str "DOM_CLICK") :: consOptStr "regionId" rid (consOptStr "selector" sel
      (consOptStr "name" nm (consOptStr "description" d (consOptRole "role" role [])))))
  | .DOM_FILL rid sel nm d v role =>
    .obj (("type", .str "DOM_FILL") :: consOptStr "regionId" rid (consOptStr "selector" sel
      (consOptStr "name" nm (consOptStr "description" d (("value", .str v) ::
        consOptRole "role" role [])))))
  | .WAIT dur u d =>
    .obj (("type", .str "WAIT") :: consOptNum "duration" dur (consOptStr "until" u
      (consOptStr "description" d [])))
  | .ASK_USER m aid =>
    .obj (("type", .str "ASK_USER") :: ("message", .str m) :: consOptStr "actionId" aid [])
  | .CONFIRM m aid =>
    .obj (("type", .str "CONFIRM") :: ("message", .str m) :: consOptStr "actionId" aid [])
  | .DONE r =>
    .obj (("type", .str "DONE") :: consOptStr "reason" r [])
  | .VISION_FILL rid v d =>
    .obj (("type", .str "VISION_FILL") :: ("regionId", .str rid) :: ("value", .str v) ::
      consOptStr "description" d [])
  | .KEY_PRESS k rid d =>
    .obj (("type", .str "KEY_PRESS") :: ("key", .str k) :: consOptStr "regionId" rid
      (consOptStr "description" d []))
  | .SCROLL dir amt d =>
    .obj (("type", .str "SCROLL") ::
      ("direction", .str (match dir with | .up => "up" | .down => "down")) ::
      consOptNum "amount" amt (consOptStr "description" d []))

def encodeDecision (d : Decision) : JVal :=
  .obj [("action", encodeAction d.action), ("reasoning", .str d.reasoning),
        ("confidence", .num d.confidence)]

/-- The schema validation the control loop applies to every decision
(controller.ts line 215: `DecisionSchema.safeParse(decision)`). -/
def decisionPassesSchema (d : Decision) : Bool :=
  (parseDecision (encodeDecision d)).isSome

/-! ## Regions and guardrails (policy/guardrails.ts) -/

structure BBox where
  x : Rat
  y : Rat
  w : Rat
  h : Rat
deriving DecidableEq, Repr

/-- A `Region` snapshot, with the fields the core reads: scanPage fills
id, label, bbox, confidence; the controller additionally reads the
optional href and role. -/
structure Region where
  id : String
  label : String
  bbox : BBox
  href : Option String
  role : Option String
  confidence : Rat
deriving DecidableEq, Repr

def findRegion (regions : List Region) (rid : String) : Option Region :=
  regions.find? (fun r => r.id == rid)

structure GuardrailResult where
  allowed : Bool
  reason : Option String
  requiresConfirmation : Bool
deriving DecidableEq, Repr

/-- The sensitive keyword list, verbatim from guardrails.ts. -/
def sensitiveKeywords : List String :=
  ["email", "username", "user name", "billing", "mfa", "otp", "password", "passcode",
   "credit card", "ccv", "ssn", "social security", "address", "phone number", "dob",
   "date of birth", "api key", "secret", "cvc", "debit", "bank account"]

/-- The resolved fill-target label: region lookup for `VISION_FILL`,
concatenated name+selector for `DOM_FILL` (the else branch of the
source; note a `DOM_FILL` regionId is ignored here), none for non-fill
actions. -/
def fillTargetLabel : Action → List Region → Option String
  | .VISION_FILL rid _ _, regions => some (((findRegion regions rid).map Region.label).getD "")
  | .DOM_FILL _ sel nm _ _ _, _ => some (nm.getD "" ++ " " ++ sel.getD "")
  | _, _ => none

/-- The regionId the click-confirmation rule reads via
`(action as any).regionId`. -/
def clickRegionId : Action → Option String
  | .VISION_CLICK rid _ => some rid
  | .DOM_CLICK rid _ _ _ _ => rid
  | _ => none

/-- The method `Guardrails.checkAction`, rule for rule from guardrails.ts:
sensitive fill label check, then risky-click confirmation, then the
`DOM_FILL` secret-marker check, else allowed.  `requireConfirmFor` is
the `config.guardrails.requireConfirmFor` list the source reads. -/
def checkAction (requireConfirmFor : List String) (action : Action)
    (regions : List Region) : GuardrailResult :=
  let sensitiveHit : Option GuardrailResult :=
    match fillTargetLabel action regions with
    | some label =>
      if sensitiveKeywords.any (fun k => strContains (lowerStr label) k) then
        some ⟨false,
          some ("Filling sensitive field \"" ++ label ++ "\" is not allowed by guardrails"),
          false⟩
      else none
    | none => none
  match sensitiveHit with
  | some r => r
  | none =>
    let confirmHit : Option GuardrailResult :=
      match clickRegionId action with
      | some rid =>
        match findRegion regions rid with
        | some region =>
          match requireConfirmFor.find? (fun k =>
              strContains (lowerStr region.label) (lowerStr k)) with
          | some k =>
            some ⟨false,
              some ("Action on \"" ++ region.label ++ "\" requires confirmation (keyword: "
                ++ k ++ ")"),
              true⟩
          | none => none
        | none => none
      | none => none
    match confirmHit with
    | some r => r
    | none =>
      match action with
      | .DOM_FILL _ _ _ _ value _ =>
        if strContains value "SECRET." || strContains value "PASSWORD"
            || strContains value "API_KEY" then
          ⟨false, some "Secrets should not be sent to LLM. Use SECRET.username references.",
            false⟩
        else ⟨true, none, false⟩
      | _ => ⟨true, none, false⟩

/-! ## Planner heuristic fallback (agent/planner.ts) -/

/-- One global pass of JS `replace(/\b<pat>\b/gi, repl)` where `pat`
begins and ends with word characters ("and then", "then").  `prev` is
the character scanned just before the current position (for the left
word boundary); fuel is the input length, consumed one character or one
match per step. -/
def wbReplaceAux (pat repl : List Char) : Nat → Option Char → List Char → List Char
  | 0, _, l => l
  | _ + 1, _, [] => []
  | fuel + 1, prev, c :: cs =>
    let boundaryBefore := match prev with
      | none => true
      | some p => !isWordChar p
    let rest := (c :: cs).drop pat.length
    let boundaryAfter := match rest with
      | [] => true
      | r :: _ => !isWordChar r
    if boundaryBefore && ciStarts pat (c :: cs) && boundaryAfter then
      repl ++ wbReplaceAux pat repl fuel (some (((c :: cs).take pat.length).getLastD c)) rest
    else
      c :: wbReplaceAux pat repl fuel (some c) cs

def wbReplace (pat repl l : List Char) : List Char :=
  wbReplaceAux pat repl l.length none l

/-- JS `replace(/[.;]+/g, ' then ')`: every run of dots/semicolons
becomes a single " then ". -/
def dotSemiAux : Bool → List Char → List Char
  | _, [] => []
  | inRun, c :: cs =>
    if c = '.' || c = ';' then
      if inRun then dotSemiAux true cs
      else " then ".toList ++ dotSemiAux true cs
    else c :: dotSemiAux false cs

/-- JS `split(/\bthen\b|,|\n/gi)`. -/
def splitThenAux : Nat → Option Char → List Char → List Char → List (List Char)
  | 0, _, acc, l => [acc.reverse ++ l]
  | _ + 1, _, acc, [] => [acc.reverse]
  | fuel + 1, prev, acc, c :: cs =>
    let boundaryBefore := match prev with
      | none => true
      | some p => !isWordChar p
    let rest := (c :: cs).drop 4
    let boundaryAfter := match rest with
      | [] => true
      | r :: _ => !isWordChar r
    if boundaryBefore && ciStarts "then".toList (c :: cs) && boundaryAfter then
      acc.reverse :: splitThenAux fuel (some (((c :: cs).take 4).getLastD c)) [] rest
    else if c = ',' || c = '\n' then
      acc.reverse :: splitThenAux fuel (some c) [] cs
    else
      splitThenAux fuel (some c) (c :: acc) cs

def splitThen (l : List Char) : List (List Char) := splitThenAux (l.length + 1) none [] l

structure PlanStep where
  id : Nat
  title : String
  description : String
  needsAuth : Bool
deriving DecidableEq, Repr

/-- The structured plan shape `heuristicPlan` returns. -/
structure HeuristicPlan where
  strategy : String
  steps : List PlanStep
deriving DecidableEq, Repr

/-- JS `/login|sign in|password/i.test(s)`: case-insensitive substring
search for one of the three alternatives. -/
def authKeywordTest (s : String) : Bool :=
  strContains (lowerStr s) "login" || strContains (lowerStr s) "sign in"
    || strContains (lowerStr s) "password"

/-- The function `heuristicPlan` from agent/planner.ts: normalise the task (fold
"and then"/"then"/runs of [.;] into " then ", trim), split on
then/comma/newline, trim and drop empty parts, default to the whole
task, keep at most 10 steps, tag auth-looking steps. -/
def heuristicPlan (task : String) : HeuristicPlan :=
  let normalized := trimL (dotSemiAux false (wbReplace "then".toList " then ".toList
      (wbReplace "and then".toList " then ".toList task.toList)))
  let parts := ((splitThen normalized).map trimL).filter (fun p => decide (p ≠ []))
  let rawSteps := if parts.length > 0 then parts.map String.mk else [task]
  { strategy := "System Offline: Falling back to simple heuristic parsing. Executing steps sequentially.",
    steps := (rawSteps.take 10).enum.map (fun p =>
      { id := p.1 + 1, title := p.2, description := "Action: " ++ p.2,
        needsAuth := authKeywordTest p.2 }) }

/-! ## DOMTools.scanPage (browser/domTools.ts)

The Playwright page is modelled as the list of elements matched by the
broad interactive selector, in document order, with the attribute reads
the scan performs.  crypto.randomUUID() is modelled as an oracle
stream `uuid : Nat -> String` together with an invocation counter, so a
session threads one counter through all of its scans. -/

structure RawBox where
  x : Rat
  y : Rat
  width : Rat
  height : Rat
deriving DecidableEq, Repr

/-- One element handle and the attribute values its reads return.
`imgAlt = none` means no descendant `img`; `some a` carries the alt
attribute of the first descendant image (`a = none` for a missing alt). -/
structure RawElement where
  visible : Bool
  bbox : Option RawBox
  textContent : Option String
  ariaLabel : Option String
  name : Option String
  placeholder : Option String
  imgAlt : Option (Option String)
deriving DecidableEq, Repr

/-- JS `a || b` for a nullable string attribute: empty and null are falsy. -/
def jsOrS (a : Option String) (b : String) : String :=
  match a with
  | some s => if s = "" then b else s
  | none => b

/-- The label derivation of scanPage steps 3-5: aria-label / name /
placeholder / text content, image fallback, whitespace cleanup, 100-char
cap.  Returned as a char list so the length cap is by construction. -/
def labelChars (e : RawElement) : List Char :=
  let text := e.textContent.getD ""
  let base := jsOrS e.ariaLabel (jsOrS e.name (jsOrS e.placeholder text))
  let labelled :=
    if trimL base.toList = [] then
      match e.imgAlt with
      | some (some a) => if a = "" then "Unlabeled Image" else "Image: " ++ a
      | some none => "Unlabeled Image"
      | none => base
    else base
  (trimL (squashWs labelled.toList)).take 100

/-- The method `DOMTools.scanPage`: skip invisible elements, missing or sub-5px
boxes, and empty labels; tag each emitted region
`element-<uuid prefix>` and advance the uuid counter. -/
def scanPage (uuid : Nat → String) : Nat → List RawElement → List Region × Nat
  | ctr, [] => ([], ctr)
  | ctr, e :: es =>
    if e.visible = false then scanPage uuid ctr es
    else
      match e.bbox with
      | none => scanPage uuid ctr es
      | some bb =>
        if bb.width < 5 ∨ bb.height < 5 then scanPage uuid ctr es
        else
          if (labelChars e).length = 0 then scanPage uuid ctr es
          else
            (⟨"element-" ++ (uuid ctr).take 8, String.mk (labelChars e),
                ⟨bb.x, bb.y, bb.width, bb.height⟩, none, none, 1⟩
              :: (scanPage uuid (ctr + 1) es).1, (scanPage uuid (ctr + 1) es).2)

/-- A session: successive scans sharing the uuid stream and counter. -/
def scanSession (uuid : Nat → String) : Nat → List (List RawElement) → List Region × Nat
  | ctr, [] => ([], ctr)
  | ctr, page :: pages =>
    let first := scanPage uuid ctr page
    let rest := scanSession uuid first.2 pages
    (first.1 ++ rest.1, rest.2)

/-! ## AgentController (agent/controller.ts)

The loop state is the set of mutable fields of the class (stepCount is
threaded separately by the loop driver).  One `Env` record supplies the
values every external read of one iteration returns: the fresh region
scan, each `getUrl`/`getTitle`/text read at its program point, the
semantic-visibility oracle answer (`true` also covers the no-key and
error fallbacks of `checkSemanticVisibility`), the scroll geometry
before and after the 600px auto-scroll, the result of
`tryGeminiDecision`, and whether ACT / VERIFY throw. -/

def maxSteps : Nat := 50

def maxAutoScrolls : Nat := 5

inductive PauseKind where
  | ASK_USER
  | CONFIRM
deriving DecidableEq, Repr

structure OutcomeRec where
  stateChanged : Bool
  urlBefore : String
  urlAfter : String
  titleBefore : String
  titleAfter : String
  textBefore : String
  textAfter : String
deriving DecidableEq, Repr

structure RegionDiffRec where
  appeared : List String
  disappeared : List String
deriving DecidableEq, Repr

structure CoreState where
  lastAction : Option Action
  lastOutcome : Option OutcomeRec
  previousRegionLabels : List String
  lastRegionDiff : Option RegionDiffRec
  lastActionKey : String
  repeatedActionCount : Nat
  scrollCount : Nat
  contentVisible : Bool
  bottomReached : Bool
  lastScrollY : Rat
  lastScrollHeight : Rat
  lastUrl : String
  consecutiveFailures : Nat
deriving DecidableEq, Repr

structure Geometry where
  scrollY : Rat
  scrollHeight : Rat
  viewportHeight : Rat
deriving DecidableEq, Repr

structure Env where
  regions : List Region
  currentUrl : String
  semanticVisible : Bool
  geoBefore : Geometry
  geoAfter : Geometry
  urlAtScroll : String
  titleAtScroll : String
  textAtScroll : String
  urlAfterScroll : String
  titleAfterScroll : String
  textAfterScroll : String
  llmDecision : Option Decision
  urlAtDecide : String
  urlBeforeAct : String
  titleBeforeAct : String
  textBeforeAct : String
  actThrows : Bool
  verifyThrows : Bool
  urlAfterVerify : String
  titleAfterVerify : String
  textAfterVerify : String
  urlAfterNavError : String
deriving DecidableEq, Repr

/-- The record `runLoop` returns. -/
structure RunResult where
  completed : Bool
  reason : String
  pendingAction : Option Action
  pauseKind : Option PauseKind
  stepCompletionCheck : Option Bool
deriving DecidableEq, Repr

def maxStepsResult : RunResult := ⟨false, "Max steps reached", none, none, none⟩

/-! ### The decide fallback heuristics (controller.ts `decide`) -/

/-- Model of `task.match(/CURRENT STEP:\s*(.+?)(?:\n|$)/i)` followed by
`.trim().toLowerCase()` (empty when the regex fails to match).  The
lazy capture bounded by newline-or-end, combined with the final trim,
is equivalent to: take the text after the first case-insensitive
occurrence of the marker, drop leading whitespace, stop at the first
newline, trim.  (When the remainder is pure whitespace the regex either
fails or captures whitespace that the trim erases — both give "".) -/
def suffixAfterCI (pat : List Char) : List Char → Option (List Char)
  | [] => if ciStarts pat [] then some [] else none
  | c :: cs =>
    if ciStarts pat (c :: cs) then some ((c :: cs).drop pat.length)
    else suffixAfterCI pat cs

def stepObjectiveOf (task : String) : String :=
  match suffixAfterCI "current step:".toList (lowerStr task).toList with
  | none => ""
  | some rest =>
    String.mk (trimL ((rest.dropWhile Char.isWhitespace).takeWhile (fun c => c ≠ '\n')))

/-- The URL-already-satisfies-step heuristic (controller.ts 435-445),
including the `if (stepObjective)` truthiness guard. -/
def alreadyDoneHeuristic (task url : String) : Bool :=
  let stepObjective := stepObjectiveOf task
  let currentUrl := lowerStr url
  decide (stepObjective ≠ "") &&
  ((strContains stepObjective "navigate to" &&
      ((strContains stepObjective "youtube" && strContains currentUrl "youtube.com") ||
       (strContains stepObjective "linkedin" && strContains currentUrl "linkedin.com") ||
       (strContains stepObjective "google" && strContains currentUrl "google.com"))) ||
   ((strContains stepObjective "search" || strContains stepObjective "initiate") &&
      (strContains currentUrl "search" || strContains currentUrl "results" ||
       strContains currentUrl "?q=" || strContains currentUrl "query=")))

/-- First fallback branch: task asks to click the first link and some
region id begins with `link-`. -/
def heuristicFirstLink (taskLower : String) (regions : List Region) : Option Decision :=
  if strContains taskLower "click" && strContains taskLower "first link" then
    match regions.filter (fun r => strStarts r.id "link-") with
    | l :: rest =>
      some ⟨.VISION_CLICK l.id (some "Click first link as requested"),
        "Found " ++ toString (l :: rest).length ++ " link(s), clicking the first one",
        0.8⟩
    | [] => none
  else none

/-- Second fallback branch: label-match against clickables, else first
clickable.  Clickables are regions whose id begins with `link-`,
`button-` or `role-`. -/
def heuristicClick (taskLower : String) (regions : List Region) : Option Decision :=
  if strContains taskLower "click" then
    match regions.filter (fun r =>
        strStarts r.id "link-" || strStarts r.id "button-" || strStarts r.id "role-") with
    | [] => none
    | c :: cs =>
      match (c :: cs).find? (fun r =>
          decide (r.label ≠ "") && strContains taskLower (lowerStr r.label)) with
      | some region =>
        some ⟨.VISION_CLICK region.id
            (some ("Click \"" ++ region.label ++ "\" as requested")),
          "Found matching element: " ++ region.label, 0.7⟩
      | none =>
        some ⟨.VISION_CLICK c.id (some "Click first available element"),
          "Clicking first clickable element: " ++ c.label, 0.5⟩
  else none

/-- The method `AgentController.decide`: LLM result first (resetting the failure
counter), then the click heuristics, then the URL-satisfies-step check,
then the graduated ladder on `consecutiveFailures`.  Returns the
decision and the updated `consecutiveFailures`. -/
def decideF (llmDecision : Option Decision) (task : String) (regions : List Region)
    (urlAtDecide : String) (cf : Nat) : Decision × Nat :=
  match llmDecision with
  | some d => (d, 0)
  | none =>
    let taskLower := lowerStr task
    match heuristicFirstLink taskLower regions with
    | some d => (d, cf)
    | none =>
      match heuristicClick taskLower regions with
      | some d => (d, cf)
      | none =>
        if alreadyDoneHeuristic task urlAtDecide then
          (⟨.DONE (some ("Step already accomplished: " ++ stepObjectiveOf task)),
            "The current page URL indicates this step is already done. Advancing to next objective.",
            0.6⟩, 0)
        else if cf < 1 then
          (⟨.SCROLL .down none
              (some "LLM returned no action. Scrolling to reveal more content."),
            "LLM returned no action. Scrolling to reveal more content.", 0.4⟩, cf + 1)
        else if cf < 2 then
          (⟨.WAIT (some 2000) none (some "Retrying after wait for page to render."),
            "Retrying after wait for page to render.", 0.3⟩, cf + 1)
        else
          (⟨.DONE (some "No matching action found for task"),
            "Could not determine appropriate action after retries", 0.3⟩, 0)

/-! ### One loop iteration, phase by phase -/

/-- OBSERVE region-diff bookkeeping (controller.ts 91-110). -/
def regionDiffPhase (e : Env) (s : CoreState) : CoreState :=
  let currentLabels := (e.regions.map Region.label).filter (fun l => decide (l ≠ ""))
  let diff :=
    if s.previousRegionLabels.length > 0 ∧ s.lastAction.isSome then
      let appeared := currentLabels.filter (fun l => !(s.previousRegionLabels.contains l))
      let disappeared := s.previousRegionLabels.filter (fun l => !(currentLabels.contains l))
      if appeared.length > 0 ∨ disappeared.length > 0 then
        some ⟨appeared.take 15, disappeared.take 15⟩
      else none
    else none
  { s with previousRegionLabels := currentLabels, lastRegionDiff := diff }

/-- URL-change detection (controller.ts 112-125): on navigation, reset
the scroll tracking and the failure counter, record the new URL. -/
def urlResetPhase (currentUrl : String) (s : CoreState) : CoreState :=
  if currentUrl ≠ s.lastUrl then
    { s with
      scrollCount := 0
      contentVisible := false
      bottomReached := false
      lastScrollY := 0
      lastScrollHeight := 0
      consecutiveFailures := 0
      lastUrl := currentUrl }
  else s

inductive GateOut where
  | fallthrough (s : CoreState)
  | scrolled (s : CoreState)
deriving DecidableEq, Repr

/-- The pre-LLM auto-scroll gate (controller.ts 127-204).
`fallthrough` proceeds to DECIDE in the same iteration; `scrolled`
performs the 600px scroll, synthesizes the SCROLL lastAction/outcome
and continues the outer loop. -/
def autoScrollGate (e : Env) (s : CoreState) : GateOut :=
  if ¬ s.contentVisible ∧ s.scrollCount < maxAutoScrolls ∧ ¬ s.bottomReached then
    if e.semanticVisible then .fallthrough { s with contentVisible := true }
    else
      if s.scrollCount > 0 ∧ e.geoBefore.scrollY = s.lastScrollY
          ∧ e.geoBefore.scrollHeight = s.lastScrollHeight
          ∧ ¬ (e.geoBefore.scrollY = 0
                ∧ |e.geoBefore.scrollHeight - e.geoBefore.viewportHeight| < 10) then
        .fallthrough { s with bottomReached := true }
      else if s.scrollCount > 0
          ∧ e.geoBefore.scrollY + e.geoBefore.viewportHeight ≥ e.geoBefore.scrollHeight - 5
          ∧ e.geoBefore.scrollHeight = s.lastScrollHeight
          ∧ ¬ (e.geoBefore.scrollY = 0
                ∧ |e.geoBefore.scrollHeight - e.geoBefore.viewportHeight| < 10) then
        .fallthrough { s with bottomReached := true }
      else if (e.geoBefore.scrollY = 0
            ∧ |e.geoBefore.scrollHeight - e.geoBefore.viewportHeight| < 10)
          ∧ s.scrollCount ≥ maxAutoScrolls then
        .fallthrough { s with bottomReached := true }
      else
        .scrolled { s with
          scrollCount := s.scrollCount + 1
          lastScrollY := e.geoAfter.scrollY
          lastScrollHeight := e.geoAfter.scrollHeight
          lastAction := some (.SCROLL .down (some 600)
            (some ("Auto-scroll " ++ toString (s.scrollCount + 1) ++ "/"
              ++ toString maxAutoScrolls)))
          lastOutcome := some ⟨decide (e.textAtScroll ≠ e.textAfterScroll)
              || decide (e.geoAfter.scrollY ≠ e.geoBefore.scrollY),
            e.urlAtScroll, e.urlAfterScroll, e.titleAtScroll, e.titleAfterScroll,
            e.textAtScroll, e.textAfterScroll⟩ }
  else .fallthrough s

/-- The field `(action as any).regionId` as the oscillation detector reads it. -/
def actionRegionId : Action → Option String
  | .VISION_CLICK rid _ => some rid
  | .VISION_FILL rid _ _ => some rid
  | .DOM_CLICK rid _ _ _ _ => rid
  | .DOM_FILL rid _ _ _ _ _ => rid
  | .KEY_PRESS _ rid _ => rid
  | _ => none

/-- The key `actionKey = type + ":" + (resolved label or '')` (controller.ts
239-241); a missing or empty regionId resolves to the empty label. -/
def actionKeyOf (a : Action) (regions : List Region) : String :=
  let targetLabel :=
    match actionRegionId a with
    | some rid =>
      if rid = "" then "" else ((findRegion regions rid).map Region.label).getD ""
    | none => ""
  a.typeName ++ ":" ++ targetLabel

/-- The stuck-detection message (controller.ts 254). -/
def oscMsg (typeName : String) (attempts : Nat) : String :=
  "I\x27ve attempted the same action (" ++ typeName ++ ") " ++ toString attempts
    ++ " times without visible change. Is this step already complete?"

/-- DONE / CONFIRM / ASK_USER terminate the loop before the oscillation
check (controller.ts 224-235). -/
def Action.isTerminal : Action → Bool
  | .DONE _ => true
  | .CONFIRM _ _ => true
  | .ASK_USER _ _ => true
  | _ => false

/-- Repeated-action bookkeeping (controller.ts 242-247). -/
def oscillationStep (key : String) (s : CoreState) : CoreState :=
  if key = s.lastActionKey then
    { s with repeatedActionCount := s.repeatedActionCount + 1 }
  else
    { s with repeatedActionCount := 0, lastActionKey := key }

inductive IterOut where
  | ret (r : RunResult)
  | cont (s : CoreState)
deriving DecidableEq, Repr

/-- Guardrails, ACT and VERIFY (controller.ts 264-341), entered with the
post-oscillation state.  The returned option is the action dispatched
to `act`, if any. -/
def guardrailsAndAct (requireConfirmFor : List String) (e : Env) (d : Decision)
    (s : CoreState) : IterOut × Option Action :=
  let g := checkAction requireConfirmFor d.action e.regions
  if g.allowed = false then
    if g.requiresConfirmation then
      (.ret ⟨false, jsOrS g.reason "This action requires confirmation",
        some d.action, some .CONFIRM, none⟩, none)
    else (.cont s, none)
  else
    if e.actThrows then
      (.cont { s with
        lastAction := some d.action
        lastOutcome := some ⟨false, e.urlBeforeAct, e.urlBeforeAct, e.titleBeforeAct,
          e.titleBeforeAct, e.textBeforeAct, e.textBeforeAct⟩ }, some d.action)
    else
      (.cont { s with
        lastAction := some d.action
        lastOutcome := some
          ⟨decide (e.urlBeforeAct ≠ (if e.verifyThrows then e.urlAfterNavError
              else e.urlAfterVerify))
            || decide (e.titleBeforeAct ≠ (if e.verifyThrows then e.titleBeforeAct
              else e.titleAfterVerify))
            || decide (e.textBeforeAct ≠ (if e.verifyThrows then e.textBeforeAct
              else e.textAfterVerify)),
          e.urlBeforeAct,
          (if e.verifyThrows then e.urlAfterNavError else e.urlAfterVerify),
          e.titleBeforeAct,
          (if e.verifyThrows then e.titleBeforeAct else e.titleAfterVerify),
          e.textBeforeAct,
          (if e.verifyThrows then e.textBeforeAct else e.textAfterVerify)⟩ },
        some d.action)

/-- DECIDE onwards (controller.ts 207-341), entered with the
post-gate state. -/
def postGate (task : String) (requireConfirmFor : List String) (e : Env)
    (s2 : CoreState) : IterOut × Option Action :=
  let dc := decideF e.llmDecision task e.regions e.urlAtDecide s2.consecutiveFailures
  let d := dc.1
  let s3 := { s2 with consecutiveFailures := dc.2 }
  if decisionPassesSchema d = false then
    -- the source appends the Zod error text to this reason; the suffix
    -- is not modelled
    (.ret ⟨false, "Decision schema validation failed", none, none, none⟩, none)
  else
    match d.action with
    | .DONE reason => (.ret ⟨true, jsOrS reason "Task completed", none, none, none⟩, none)
    | .CONFIRM m _ => (.ret ⟨false, m, none, some .CONFIRM, none⟩, none)
    | .ASK_USER m _ => (.ret ⟨false, m, none, some .ASK_USER, none⟩, none)
    | _ =>
      let s4 := oscillationStep (actionKeyOf d.action e.regions) s3
      if s4.repeatedActionCount ≥ 2 then
        (.ret ⟨false, oscMsg d.action.typeName (s4.repeatedActionCount + 1), none,
          some .CONFIRM, some true⟩, none)
      else
        guardrailsAndAct requireConfirmFor e d s4

/-- One full iteration of the while-loop body (after the stepCount
increment): OBSERVE diff, URL-change reset, auto-scroll gate, DECIDE,
validation, terminal actions, oscillation, guardrails, ACT, VERIFY. -/
def iterate (task : String) (requireConfirmFor : List String) (e : Env)
    (s0 : CoreState) : IterOut × Option Action :=
  match autoScrollGate e (urlResetPhase e.currentUrl (regionDiffPhase e s0)) with
  | .scrolled s2 => (.cont s2, none)
  | .fallthrough s2 => postGate task requireConfirmFor e s2

/-! ### The loop driver -/

/-- Fuel-indexed unfolding of `while (stepCount < maxSteps)`.  The fuel
is an artifact: every iteration increments the step counter by one, so
`maxSteps` fuel always suffices (`runLoopAux_fuel_irrel`).  Returns the
result, the number of iterations executed, and whether the loop ended
by exhausting the step budget (the fall-out return of line 344). -/
def runLoopAux (task : String) (requireConfirmFor : List String) (env : Nat → Env) :
    Nat → Nat → CoreState → RunResult × Nat × Bool
  | 0, _, _ => (maxStepsResult, 0, true)
  | fuel + 1, step, s =>
    if step < maxSteps then
      match iterate task requireConfirmFor (env (step + 1)) s with
      | (.ret r, _) => (r, 1, false)
      | (.cont s', _) =>
        ((runLoopAux task requireConfirmFor env fuel (step + 1) s').1,
         (runLoopAux task requireConfirmFor env fuel (step + 1) s').2.1 + 1,
         (runLoopAux task requireConfirmFor env fuel (step + 1) s').2.2)
    else (maxStepsResult, 0, true)

/-- The reset block of `runLoop` (controller.ts 64-79): every tracked
field except `lastUrl` is cleared, and stepCount restarts at 0. -/
def resetState (s : CoreState) : CoreState :=
  { s with
    lastAction := none
    lastOutcome := none
    previousRegionLabels := []
    lastRegionDiff := none
    lastActionKey := ""
    repeatedActionCount := 0
    scrollCount := 0
    contentVisible := false
    bottomReached := false
    lastScrollY := 0
    lastScrollHeight := 0
    consecutiveFailures := 0 }

/-- The method `AgentController.runLoop`: `reset` is `opts?.resetStepCount ?? true`;
`step0` and `s0` are the persisted stepCount and field state of the
controller instance. -/
def runLoop (task : String) (requireConfirmFor : List String) (env : Nat → Env)
    (s0 : CoreState) (step0 : Nat) (reset : Bool) : RunResult × Nat × Bool :=
  if reset then runLoopAux task requireConfirmFor env maxSteps 0 (resetState s0)
  else runLoopAux task requireConfirmFor env maxSteps step0 s0

/-- A fixed environment used by concrete loop-level witnesses. -/
def envW : Env :=
  { regions := []
    currentUrl := "https://b.com"
    semanticVisible := true
    geoBefore := ⟨0, 0, 0⟩
    geoAfter := ⟨0, 0, 0⟩
    urlAtScroll := ""
    titleAtScroll := ""
    textAtScroll := ""
    urlAfterScroll := ""
    titleAfterScroll := ""
    textAfterScroll := ""
    llmDecision := none
    urlAtDecide := ""
    urlBeforeAct := ""
    titleBeforeAct := ""
    textBeforeAct := ""
    actThrows := false
    verifyThrows := false
    urlAfterVerify := ""
    titleAfterVerify := ""
    textAfterVerify := ""
    urlAfterNavError := "" }

/-- A fixed controller state used by concrete loop-level witnesses. -/
def stateW : CoreState :=
  { lastAction := none
    lastOutcome := none
    previousRegionLabels := []
    lastRegionDiff := none
    lastActionKey := ""
    repeatedActionCount := 0
    scrollCount := 3
    contentVisible := true
    bottomReached := true
    lastScrollY := 7
    lastScrollHeight := 9
    lastUrl := ""
    consecutiveFailures := 2 }

/-- A fixed repeated decision for the oscillation witness. -/
def dOsc : Decision := ⟨.VISION_CLICK "x" none, "r", 1⟩

/-- Environment for the oscillation witness: the LLM keeps returning
`dOsc`. -/
def envOsc : Env := { envW with llmDecision := some dOsc }

/-- State for the oscillation witness: the key of `dOsc` is already
stored with one repeat counted, content is visible and the URL is
unchanged, so the iteration reaches DECIDE. -/
def stateOsc : CoreState :=
  { stateW with
    lastActionKey := "VISION_CLICK:"
    repeatedActionCount := 1
    contentVisible := true
    lastUrl := "https://b.com" }

/-! ## Theorems for the claims -/

/-! ## Claims C1 and C3: guardrail fill rules -/

/-- C1 (counterexample).  The claim resolves the fill label via regionId
lookup for every fill variant; the source does that only for
`VISION_FILL`.  A `DOM_FILL` whose regionId points at a region labelled
"Password" but with no name/selector text is allowed. -/
theorem guardrails_domfill_regionid_not_denied :
    checkAction [] (.DOM_FILL (some "r1") none none none "hello" none)
      [⟨"r1", "Password", ⟨0, 0, 10, 10⟩, none, none, 1⟩] = ⟨true, none, false⟩ := by
  decide

/-- C1 (amended).  With the label resolved as the source resolves it
(region lookup for VISION_FILL, name+selector text for DOM_FILL), a
fill whose lowercased label contains a sensitive keyword is denied with
requiresConfirmation = false. -/
theorem guardrails_sensitive_fill_denied (requireConfirmFor : List String) (action : Action)
    (regions : List Region) (label : String)
    (h1 : fillTargetLabel action regions = some label)
    (h2 : sensitiveKeywords.any (fun k => strContains (lowerStr label) k) = true) :
    (checkAction requireConfirmFor action regions).allowed = false ∧
    (checkAction requireConfirmFor action regions).requiresConfirmation = false := by
  unfold checkAction
  rw [h1]
  simp [h2]

/-- C1 (witness): a VISION_FILL whose regionId resolves to a region
labelled "Password" is denied without confirmation. -/
theorem guardrails_sensitive_fill_denied_witness :
    (checkAction [] (.VISION_FILL "r1" "x" none)
      [⟨"r1", "Password", ⟨0, 0, 10, 10⟩, none, none, 1⟩]).allowed = false ∧
    (checkAction [] (.VISION_FILL "r1" "x" none)
      [⟨"r1", "Password", ⟨0, 0, 10, 10⟩, none, none, 1⟩]).requiresConfirmation = false :=
  guardrails_sensitive_fill_denied [] (.VISION_FILL "r1" "x" none)
    [⟨"r1", "Password", ⟨0, 0, 10, 10⟩, none, none, 1⟩] "Password" (by decide) (by decide)

/-- C3 (counterexample).  The secret-marker rule is applied only to
`DOM_FILL` in the source: a `VISION_FILL` whose value contains the
literal marker "PASSWORD" (and whose target label is not sensitive) is
allowed. -/
theorem secret_marker_vision_fill_allowed :
    checkAction [] (.VISION_FILL "r1" "PASSWORD" none)
      [⟨"r1", "Search box", ⟨0, 0, 10, 10⟩, none, none, 1⟩] = ⟨true, none, false⟩ := by
  decide

/-- C3 (amended).  The secret-marker denial holds for `DOM_FILL`:
whenever the value contains "SECRET.", "PASSWORD" or "API_KEY" the
action is denied with requiresConfirmation = false (either by the
marker rule or, earlier, by the sensitive-label rule; both deny without
confirmation). -/
theorem secret_marker_dom_fill_denied (requireConfirmFor : List String)
    (rid sel nm desc : Option String) (value : String) (role : Option RoleClick)
    (regions : List Region)
    (h : (strContains value "SECRET." || strContains value "PASSWORD"
          || strContains value "API_KEY") = true) :
    (checkAction requireConfirmFor (.DOM_FILL rid sel nm desc value role) regions).allowed
      = false ∧
    (checkAction requireConfirmFor
      (.DOM_FILL rid sel nm desc value role) regions).requiresConfirmation = false := by
  unfold checkAction
  simp only [fillTargetLabel, clickRegionId]
  by_cases hs : sensitiveKeywords.any
      (fun k => strContains (lowerStr (nm.getD "" ++ " " ++ sel.getD "")) k) = true
  · simp [hs]
  · rw [Bool.not_eq_true] at hs
    simp [hs, h]

/-- C3 (witness): a DOM_FILL with value "my PASSWORD here" is denied
without confirmation. -/
theorem secret_marker_dom_fill_denied_witness :
    (checkAction [] (.DOM_FILL none none none none "my PASSWORD here" none) []).allowed = false ∧
    (checkAction [] (.DOM_FILL none none none none "my PASSWORD here" none)
      []).requiresConfirmation = false :=
  secret_marker_dom_fill_denied [] none none none none "my PASSWORD here" none [] (by decide)

/-! ## Claim C2: the validated action grammar -/

/-- Helper for C2: nothing `parseAction` returns is a `SCROLL`; the Zod
union simply has no branch for that discriminator. -/
theorem parseAction_never_scroll (j : JVal) (a : Action)
    (h : parseAction j = some a) : a.isSCROLL = false := by
  unfold parseAction at h
  repeat' split at h
  all_goals try exact Option.noConfusion h
  all_goals injection h with h2
  all_goals subst h2
  all_goals rfl

/-- C2 (counterexample).  A decision whose action is
`{type:"SCROLL", direction:"down"}` does not pass the schema validation
used by the control loop: `ActionSchema` rejects the raw JSON, and
`DecisionSchema.safeParse` rejects the controller-built SCROLL decision. -/
theorem actionschema_scroll_rejected :
    parseAction (.obj [("type", .str "SCROLL"), ("direction", .str "down")]) = none ∧
    decisionPassesSchema ⟨.SCROLL .down none (some "d"), "scrolling", 0.4⟩ = false := by
  constructor
  · rfl
  · rfl

/-- C2 (amended).  The validated grammar comprises exactly the nine
variants present in agent/schemas.ts — VISION_CLICK, DOM_CLICK,
DOM_FILL, WAIT, ASK_USER, CONFIRM, DONE, VISION_FILL, KEY_PRESS — each
accepted on a witness value, while no SCROLL value is ever accepted. -/
theorem actionschema_nine_variants :
    (parseAction (.obj [("type", .str "VISION_CLICK"), ("regionId", .str "r")])
      = some (.VISION_CLICK "r" none)) ∧
    (parseAction (.obj [("type", .str "DOM_CLICK")])
      = some (.DOM_CLICK none none none none none)) ∧
    (parseAction (.obj [("type", .str "DOM_FILL"), ("value", .str "v")])
      = some (.DOM_FILL none none none none "v" none)) ∧
    (parseAction (.obj [("type", .str "WAIT")]) = some (.WAIT none none none)) ∧
    (parseAction (.obj [("type", .str "ASK_USER"), ("message", .str "m")])
      = some (.ASK_USER "m" none)) ∧
    (parseAction (.obj [("type", .str "CONFIRM"), ("message", .str "m")])
      = some (.CONFIRM "m" none)) ∧
    (parseAction (.obj [("type", .str "DONE")]) = some (.DONE none)) ∧
    (parseAction (.obj [("type", .str "VISION_FILL"), ("regionId", .str "r"),
        ("value", .str "v")]) = some (.VISION_FILL "r" "v" none)) ∧
    (parseAction (.obj [("type", .str "KEY_PRESS"), ("key", .str "Enter")])
      = some (.KEY_PRESS "Enter" none none)) ∧
    (∀ j a, parseAction j = some a → a.isSCROLL = false) := by
  refine ⟨rfl, rfl, rfl, rfl, rfl, rfl, rfl, rfl, rfl, ?_⟩
  exact parseAction_never_scroll

/-- C2 (witness) for the hypothesis-bearing final conjunct: applied at
the VISION_CLICK witness value. -/
theorem actionschema_nine_variants_witness :
    (parseAction (.obj [("type", .str "VISION_CLICK"), ("regionId", .str "r")])
        = some (.VISION_CLICK "r" none)) ∧
    (Action.VISION_CLICK "r" none).isSCROLL = false :=
  ⟨by rfl, actionschema_nine_variants.2.2.2.2.2.2.2.2.2
    (.obj [("type", .str "VISION_CLICK"), ("regionId", .str "r")])
    (.VISION_CLICK "r" none) (by rfl)⟩

/-! ## Claim C9: shape of the heuristic fallback plan -/

/-- C9.  For every task, the heuristic fallback plan has a strategy
beginning with "System Offline:", between 1 and 10 steps (the split
parts, capped at 10, defaulting to the whole task when the split is
empty), and needsAuth set on a step iff its text matches
/login|sign in|password/i. -/
theorem heuristic_plan_shape (task : String) :
    strStarts (heuristicPlan task).strategy "System Offline:" = true ∧
    1 ≤ (heuristicPlan task).steps.length ∧
    (heuristicPlan task).steps.length ≤ 10 ∧
    (heuristicPlan task).steps.all (fun st => st.needsAuth == authKeywordTest st.title)
      = true := by
  refine ⟨rfl, ?_, ?_, ?_⟩
  · simp only [heuristicPlan, List.length_map, List.enum_length, List.length_take]
    split
    · next hp => simp only [List.length_map]; omega
    · simp
  · simp only [heuristicPlan, List.length_map, List.enum_length, List.length_take]
    exact Nat.min_le_left 10 _
  · simp only [heuristicPlan, List.all_eq_true]
    intro st hst
    obtain ⟨p, _, hp⟩ := List.mem_map.mp hst
    subst hp
    exact beq_self_eq_true _

/-! ## Claim C7: shape and uniqueness of scanned regions -/

theorem range'_split (m : Nat) :
    ∀ s n, List.range' s (m + n) = List.range' s m ++ List.range' (s + m) n := by
  induction m with
  | zero => intro s n; simp
  | succ m ih =>
    intro s n
    have h1 : m + 1 + n = (m + n) + 1 := by omega
    rw [h1, List.range'_succ, List.range'_succ, ih (s + 1) n, List.cons_append]
    have h2 : s + 1 + m = s + (m + 1) := by omega
    rw [h2]

theorem scanPage_counter_le (uuid : Nat → String) (es : List RawElement) :
    ∀ ctr, ctr ≤ (scanPage uuid ctr es).2 := by
  induction es with
  | nil => intro ctr; simp [scanPage]
  | cons e es ih =>
    intro ctr
    unfold scanPage
    split
    · exact ih ctr
    · split
      · exact ih ctr
      · split
        · exact ih ctr
        · split
          · exact ih ctr
          · exact Nat.le_trans (Nat.le_succ ctr) (ih (ctr + 1))

/-- The ids a scan emits are exactly `element-` plus the 8-char uuid
prefix, one per consecutive uuid invocation. -/
theorem scanPage_ids (uuid : Nat → String) (es : List RawElement) :
    ∀ ctr, (scanPage uuid ctr es).1.map Region.id
      = (List.range' ctr ((scanPage uuid ctr es).2 - ctr)).map
          (fun k => "element-" ++ (uuid k).take 8) := by
  induction es with
  | nil => intro ctr; simp [scanPage]
  | cons e es ih =>
    intro ctr
    unfold scanPage
    split
    · exact ih ctr
    · split
      · exact ih ctr
      · split
        · exact ih ctr
        · split
          · exact ih ctr
          · have hle := scanPage_counter_le uuid es (ctr + 1)
            have hn : (scanPage uuid (ctr + 1) es).2 - ctr
                = ((scanPage uuid (ctr + 1) es).2 - (ctr + 1)) + 1 := by omega
            simp only [List.map_cons, hn, List.range'_succ, ih (ctr + 1)]

theorem scanSession_counter_le (uuid : Nat → String) (pages : List (List RawElement)) :
    ∀ ctr, ctr ≤ (scanSession uuid ctr pages).2 := by
  induction pages with
  | nil => intro ctr; simp [scanSession]
  | cons page pages ih =>
    intro ctr
    exact Nat.le_trans (scanPage_counter_le uuid page ctr)
      (ih ((scanPage uuid ctr page).2))

theorem scanSession_ids (uuid : Nat → String) (pages : List (List RawElement)) :
    ∀ ctr, (scanSession uuid ctr pages).1.map Region.id
      = (List.range' ctr ((scanSession uuid ctr pages).2 - ctr)).map
          (fun k => "element-" ++ (uuid k).take 8) := by
  induction pages with
  | nil => intro ctr; simp [scanSession]
  | cons page pages ih =>
    intro ctr
    have h1 := scanPage_ids uuid page ctr
    have h2 := ih ((scanPage uuid ctr page).2)
    have hle1 := scanPage_counter_le uuid page ctr
    have hle2 := scanSession_counter_le uuid pages ((scanPage uuid ctr page).2)
    have hsum : (scanSession uuid (scanPage uuid ctr page).2 pages).2 - ctr
        = ((scanPage uuid ctr page).2 - ctr)
          + ((scanSession uuid (scanPage uuid ctr page).2 pages).2
              - (scanPage uuid ctr page).2) := by omega
    have hmid : ctr + ((scanPage uuid ctr page).2 - ctr) = (scanPage uuid ctr page).2 := by
      omega
    simp only [scanSession, List.map_append, h1, h2, hsum, range'_split, hmid]

/-- Every region a scan emits satisfies the label and bbox guards of
the source loop. -/
theorem scanPage_mem_props (uuid : Nat → String) (es : List RawElement) :
    ∀ ctr, ∀ r ∈ (scanPage uuid ctr es).1,
      r.label.length ≠ 0 ∧ r.label.length ≤ 100 ∧ 5 ≤ r.bbox.w ∧ 5 ≤ r.bbox.h := by
  induction es with
  | nil => intro ctr; simp [scanPage]
  | cons e es ih =>
    intro ctr
    unfold scanPage
    split
    · exact ih ctr
    · split
      · exact ih ctr
      · next bb _ =>
        split
        · exact ih ctr
        · next hdim =>
          split
          · exact ih ctr
          · next hlab =>
            intro r hr
            rcases List.mem_cons.mp hr with hhd | htl
            · subst hhd
              push_neg at hdim
              refine ⟨hlab, ?_, hdim.1, hdim.2⟩
              show (labelChars e).length ≤ 100
              unfold labelChars
              rw [List.length_take]
              exact Nat.min_le_left 100 _
            · exact ih (ctr + 1) r htl

theorem scanSession_mem_props (uuid : Nat → String) (pages : List (List RawElement)) :
    ∀ ctr, ∀ r ∈ (scanSession uuid ctr pages).1,
      r.label.length ≠ 0 ∧ r.label.length ≤ 100 ∧ 5 ≤ r.bbox.w ∧ 5 ≤ r.bbox.h := by
  induction pages with
  | nil => intro ctr; simp [scanSession]
  | cons page pages ih =>
    intro ctr r hr
    rcases List.mem_append.mp hr with hp | hs
    · exact scanPage_mem_props uuid page ctr r hp
    · exact ih ((scanPage uuid ctr page).2) r hs

theorem string_append_left_cancel (p a b : String) (h : p ++ a = p ++ b) : a = b := by
  cases p with
  | mk lp =>
    cases a with
    | mk la =>
      cases b with
      | mk lb =>
        injection h with h2
        exact congrArg String.mk (List.append_cancel_left h2)

/-- C7 (counterexample).  Region ids are `element-` plus the first 8
characters of `crypto.randomUUID()`; the source never checks for
collisions, so a scan in which the generator repeats a truncated prefix
emits two regions with the same id. -/
theorem scanpage_duplicate_id_possible :
    ¬ (((scanPage (fun _ => "deadbeef-0000-4000-8000-000000000000") 0
        [⟨true, some ⟨0, 0, 10, 10⟩, some "Click me", none, none, none, none⟩,
         ⟨true, some ⟨0, 0, 10, 10⟩, some "Buy now", none, none, none, none⟩]).1.map
          Region.id).Nodup) := by
  decide

/-- C7 (amended).  Every region any scan of a session emits has a
non-empty label of at most 100 characters and a bbox at least 5 wide
and 5 high; and provided the 8-character uuid prefixes generated during
the session are pairwise distinct (which the code does not itself
enforce), all ids issued in the session are distinct. -/
theorem scanpage_region_wellformed (uuid : Nat → String) (ctr : Nat)
    (pages : List (List RawElement))
    (h : ((List.range' ctr ((scanSession uuid ctr pages).2 - ctr)).map
        (fun k => (uuid k).take 8)).Nodup) :
    (∀ r ∈ (scanSession uuid ctr pages).1,
      r.label ≠ "" ∧ r.label.length ≤ 100 ∧ 5 ≤ r.bbox.w ∧ 5 ≤ r.bbox.h) ∧
    ((scanSession uuid ctr pages).1.map Region.id).Nodup := by
  constructor
  · intro r hr
    obtain ⟨hne, hlen, hw, hh⟩ := scanSession_mem_props uuid pages ctr r hr
    refine ⟨?_, hlen, hw, hh⟩
    intro heq
    exact hne (by rw [heq]; rfl)
  · rw [scanSession_ids]
    have hmm : (List.range' ctr ((scanSession uuid ctr pages).2 - ctr)).map
          (fun k => "element-" ++ (uuid k).take 8)
        = ((List.range' ctr ((scanSession uuid ctr pages).2 - ctr)).map
            (fun k => (uuid k).take 8)).map (fun p => "element-" ++ p) := by
      rw [List.map_map]
      rfl
    rw [hmm]
    exact h.map (fun a b hab => string_append_left_cancel "element-" a b hab)

/-- C7 (witness): a two-scan session with distinct generated prefixes. -/
theorem scanpage_region_wellformed_witness :
    ((List.range' 0 ((scanSession (fun i => String.mk (List.replicate (i + 1) 'a')) 0
        [[⟨true, some ⟨0, 0, 10, 10⟩, some "Click me", none, none, none, none⟩],
         [⟨true, some ⟨0, 0, 10, 10⟩, some "Buy now", none, none, none, none⟩]]).2 - 0)).map
        (fun k => (String.mk (List.replicate (k + 1) 'a')).take 8)).Nodup ∧
    (((scanSession (fun i => String.mk (List.replicate (i + 1) 'a')) 0
        [[⟨true, some ⟨0, 0, 10, 10⟩, some "Click me", none, none, none, none⟩],
         [⟨true, some ⟨0, 0, 10, 10⟩, some "Buy now", none, none, none, none⟩]]).1.map
          Region.id).Nodup) :=
  ⟨by decide,
    (scanpage_region_wellformed (fun i => String.mk (List.replicate (i + 1) 'a')) 0
      [[⟨true, some ⟨0, 0, 10, 10⟩, some "Click me", none, none, none, none⟩],
       [⟨true, some ⟨0, 0, 10, 10⟩, some "Buy now", none, none, none, none⟩]]
      (by decide)).2⟩

/-! ## Claim C6: URL change resets scroll tracking -/

/-- C6.  In an iteration whose observed URL differs from `lastUrl`, the
state handed to the auto-scroll gate (`iterate` applies `autoScrollGate`
to exactly this composition) has all scroll-tracking fields and the
failure counter reset and `lastUrl` set to the current URL. -/
theorem runloop_url_change_resets (e : Env) (s : CoreState)
    (h : e.currentUrl ≠ s.lastUrl) :
    (urlResetPhase e.currentUrl (regionDiffPhase e s)).scrollCount = 0 ∧
    (urlResetPhase e.currentUrl (regionDiffPhase e s)).contentVisible = false ∧
    (urlResetPhase e.currentUrl (regionDiffPhase e s)).bottomReached = false ∧
    (urlResetPhase e.currentUrl (regionDiffPhase e s)).lastScrollY = 0 ∧
    (urlResetPhase e.currentUrl (regionDiffPhase e s)).lastScrollHeight = 0 ∧
    (urlResetPhase e.currentUrl (regionDiffPhase e s)).consecutiveFailures = 0 ∧
    (urlResetPhase e.currentUrl (regionDiffPhase e s)).lastUrl = e.currentUrl := by
  have hl : (regionDiffPhase e s).lastUrl = s.lastUrl := rfl
  unfold urlResetPhase
  rw [hl, if_pos h]
  exact ⟨rfl, rfl, rfl, rfl, rfl, rfl, rfl⟩

/-- C6 (witness). -/
theorem runloop_url_change_resets_witness :
    envW.currentUrl ≠ stateW.lastUrl ∧
    (urlResetPhase envW.currentUrl (regionDiffPhase envW stateW)).scrollCount = 0 :=
  ⟨by decide, (runloop_url_change_resets envW stateW (by decide)).1⟩

/-! ## Claim C8: the graduated retry ladder -/

/-- C8.  When the LLM path returns null, neither click heuristic
produces a decision, and the URL-satisfies-step check fails, `decide`
follows the ladder on `consecutiveFailures`: 0 → SCROLL down
(counter 1), 1 → WAIT 2000ms (counter 2), otherwise → DONE (counter
reset to 0).  The antecedent is exactly the fall-through of the source:
the heuristic click branches return nothing — whether because the task
lacks "click" or because no region id matches their prefixes. -/
theorem decide_graduated_ladder (task : String) (regions : List Region)
    (url : String) (cf : Nat)
    (hfl : heuristicFirstLink (lowerStr task) regions = none)
    (hcl : heuristicClick (lowerStr task) regions = none)
    (hdone : alreadyDoneHeuristic task url = false) :
    (cf = 0 → decideF none task regions url cf
      = (⟨.SCROLL .down none
            (some "LLM returned no action. Scrolling to reveal more content."),
          "LLM returned no action. Scrolling to reveal more content.", 0.4⟩, 1)) ∧
    (cf = 1 → decideF none task regions url cf
      = (⟨.WAIT (some 2000) none (some "Retrying after wait for page to render."),
          "Retrying after wait for page to render.", 0.3⟩, 2)) ∧
    (2 ≤ cf → decideF none task regions url cf
      = (⟨.DONE (some "No matching action found for task"),
          "Could not determine appropriate action after retries", 0.3⟩, 0)) := by
  refine ⟨?_, ?_, ?_⟩
  · intro hcf
    subst hcf
    simp [decideF, hfl, hcl, hdone]
  · intro hcf
    subst hcf
    simp [decideF, hfl, hcl, hdone]
  · intro hcf
    simp only [decideF, hfl, hcl, hdone, Bool.false_eq_true, if_false]
    rw [if_neg (by omega), if_neg (by omega)]

/-- C8 (witness): a "click" task over a scanned-style region list whose
ids all begin with `element-`, so both click heuristics come up empty
(the case of the spec's happy-click scenario) and the ladder starts
with SCROLL. -/
theorem decide_graduated_ladder_witness :
    heuristicFirstLink (lowerStr "Click the first link.")
      [⟨"element-abcd1234", "Docs", ⟨0, 0, 10, 10⟩, none, none, 1⟩] = none ∧
    (decideF none "Click the first link."
      [⟨"element-abcd1234", "Docs", ⟨0, 0, 10, 10⟩, none, none, 1⟩] "https://a.com" 0
      = (⟨.SCROLL .down none
            (some "LLM returned no action. Scrolling to reveal more content."),
          "LLM returned no action. Scrolling to reveal more content.", 0.4⟩, 1)) :=
  ⟨by decide,
    (decide_graduated_ladder "Click the first link."
      [⟨"element-abcd1234", "Docs", ⟨0, 0, 10, 10⟩, none, none, 1⟩] "https://a.com" 0
      (by decide) (by decide) (by decide)).1 rfl⟩

/-! ## Claim C5: the step budget -/

/-- The fuel is an artifact of the embedding: any two fuels at least
`maxSteps - step` give the same run, so `maxSteps` fuel computes the
source while-loop exactly. -/
theorem runLoopAux_fuel_irrel (task : String) (rcf : List String) (env : Nat → Env) :
    ∀ f1 f2 step s, maxSteps - step ≤ f1 → maxSteps - step ≤ f2 →
      runLoopAux task rcf env f1 step s = runLoopAux task rcf env f2 step s := by
  intro f1
  induction f1 with
  | zero =>
    intro f2 step s h1 h2
    have hstep : maxSteps ≤ step := by omega
    cases f2 with
    | zero => rfl
    | succ f2 =>
      simp only [runLoopAux]
      rw [if_neg (by omega)]
  | succ f1 ih =>
    intro f2 step s h1 h2
    cases f2 with
    | zero =>
      have hstep : maxSteps ≤ step := by omega
      simp only [runLoopAux]
      rw [if_neg (by omega)]
    | succ f2 =>
      simp only [runLoopAux]
      by_cases hs : step < maxSteps
      · rw [if_pos hs, if_pos hs]
        cases hiter : iterate task rcf (env (step + 1)) s with
        | mk out osc =>
          cases out with
          | ret r => rfl
          | cont s' =>
            have := ih f2 (step + 1) s' (by omega) (by omega)
            simp only [this]
      · rw [if_neg hs, if_neg hs]

/-- Iterations never exceed the remaining budget. -/
theorem runLoopAux_bound (task : String) (rcf : List String) (env : Nat → Env) :
    ∀ fuel step s, (runLoopAux task rcf env fuel step s).2.1 ≤ maxSteps - step := by
  intro fuel
  induction fuel with
  | zero => intro step s; simp [runLoopAux]
  | succ fuel ih =>
    intro step s
    simp only [runLoopAux]
    by_cases hs : step < maxSteps
    · rw [if_pos hs]
      cases hiter : iterate task rcf (env (step + 1)) s with
      | mk out osc =>
        cases out with
        | ret r => simpa using by omega
        | cont s' =>
          have := ih (step + 1) s'
          simp only []
          omega
    · rw [if_neg hs]
      simp

/-- When the loop ends by exhausting the budget it returns exactly the
"Max steps reached" record. -/
theorem runLoopAux_exhaust (task : String) (rcf : List String) (env : Nat → Env) :
    ∀ fuel step s, (runLoopAux task rcf env fuel step s).2.2 = true →
      (runLoopAux task rcf env fuel step s).1 = maxStepsResult := by
  intro fuel
  induction fuel with
  | zero => intro step s _; rfl
  | succ fuel ih =>
    intro step s h
    simp only [runLoopAux] at h ⊢
    by_cases hs : step < maxSteps
    · rw [if_pos hs] at h ⊢
      cases hiter : iterate task rcf (env (step + 1)) s with
      | mk out osc =>
        rw [hiter] at h
        cases out with
        | ret r => simp at h
        | cont s' => exact ih (step + 1) s' h
    · rw [if_neg hs] at h ⊢

/-- C5.  `runLoop` performs at most `maxSteps = 50` iterations,
stepCount (initial count plus one increment per iteration) never
exceeds 50, and when the while-loop falls out with the budget exhausted
the result is `completed = false, reason = "Max steps reached"`. -/
theorem runloop_step_budget (task : String) (rcf : List String) (env : Nat → Env)
    (s0 : CoreState) (step0 : Nat) (reset : Bool) (h : step0 ≤ maxSteps) :
    (runLoop task rcf env s0 step0 reset).2.1 ≤ maxSteps ∧
    (if reset then 0 else step0) + (runLoop task rcf env s0 step0 reset).2.1 ≤ maxSteps ∧
    ((runLoop task rcf env s0 step0 reset).2.2 = true →
      (runLoop task rcf env s0 step0 reset).1 = maxStepsResult) := by
  cases reset with
  | true =>
    have hrw : runLoop task rcf env s0 step0 true
        = runLoopAux task rcf env maxSteps 0 (resetState s0) := rfl
    rw [hrw]
    have hb := runLoopAux_bound task rcf env maxSteps 0 (resetState s0)
    refine ⟨by omega, by simpa using by omega, ?_⟩
    exact runLoopAux_exhaust task rcf env maxSteps 0 (resetState s0)
  | false =>
    have hrw : runLoop task rcf env s0 step0 false
        = runLoopAux task rcf env maxSteps step0 s0 := rfl
    rw [hrw]
    have hb := runLoopAux_bound task rcf env maxSteps step0 s0
    refine ⟨by omega, by simpa using by omega, ?_⟩
    exact runLoopAux_exhaust task rcf env maxSteps step0 s0

/-- C5 (witness). -/
theorem runloop_step_budget_witness :
    (0 : Nat) ≤ maxSteps ∧
    (runLoop "task" [] (fun _ => envW) stateW 0 true).2.1 ≤ maxSteps :=
  ⟨by decide, (runloop_step_budget "task" [] (fun _ => envW) stateW 0 true (by decide)).1⟩

/-! ## Claim C4: oscillation detection -/

/-- Helper: when the validated, non-terminal decision repeats the
current action key with the repeat counter already at least 1, DECIDE
returns the stuck-detection pause before consulting guardrails or ACT
(nothing is dispatched). -/
theorem postGate_osc (task : String) (rcf : List String) (e : Env) (s2 : CoreState)
    (d : Decision) (n : Nat)
    (hdec : decideF e.llmDecision task e.regions e.urlAtDecide s2.consecutiveFailures
      = (d, n))
    (hschema : decisionPassesSchema d = true)
    (hterm : d.action.isTerminal = false)
    (hkey : actionKeyOf d.action e.regions = s2.lastActionKey)
    (hcount : 1 ≤ s2.repeatedActionCount) :
    postGate task rcf e s2
      = (.ret ⟨false, oscMsg d.action.typeName (s2.repeatedActionCount + 2), none,
          some .CONFIRM, some true⟩, none) := by
  simp only [postGate, hdec]
  rw [if_neg (by simp [hschema])]
  cases hda : d.action <;> rw [hda] at hterm hkey <;>
    simp [Action.isTerminal] at hterm <;>
    · dsimp only
      simp only [oscillationStep]
      rw [hkey]
      rw [if_pos rfl]
      dsimp only
      rw [if_pos (by omega)]

/-- Helper: the repeat counter resets whenever the action key changes
(controller.ts 244-246). -/
theorem oscillationStep_reset (key : String) (s : CoreState) (h : key ≠ s.lastActionKey) :
    (oscillationStep key s).repeatedActionCount = 0 ∧
    (oscillationStep key s).lastActionKey = key := by
  unfold oscillationStep
  rw [if_neg h]
  exact ⟨rfl, rfl⟩

/-- C4.  When an iteration reaches DECIDE and the validated decision is
the second consecutive repeat of the stored action key (counter reaches
2), the iteration returns — before guardrails and before ACT, so
nothing is dispatched — with completed = false, pauseKind = CONFIRM,
stepCompletionCheck = true and the message quoting the action type and
the attempt count 3; and the repeat counter resets to 0 whenever the
action key differs from the stored one. -/
theorem runloop_oscillation_pause (task : String) (rcf : List String) (e : Env)
    (s0 s2 : CoreState) (d : Decision) (n : Nat) (key : String) (s' : CoreState)
    (hgate : autoScrollGate e (urlResetPhase e.currentUrl (regionDiffPhase e s0))
      = .fallthrough s2)
    (hdec : decideF e.llmDecision task e.regions e.urlAtDecide s2.consecutiveFailures
      = (d, n))
    (hschema : decisionPassesSchema d = true)
    (hterm : d.action.isTerminal = false)
    (hkey : actionKeyOf d.action e.regions = s2.lastActionKey)
    (hcount : s2.repeatedActionCount = 1)
    (hreset : key ≠ s'.lastActionKey) :
    iterate task rcf e s0
      = (.ret ⟨false, oscMsg d.action.typeName 3, none, some .CONFIRM, some true⟩,
         none) ∧
    (oscillationStep key s').repeatedActionCount = 0 := by
  constructor
  · unfold iterate
    rw [hgate]
    have h := postGate_osc task rcf e s2 d n hdec hschema hterm hkey (by omega)
    rw [hcount] at h
    exact h
  · exact (oscillationStep_reset key s' hreset).1

/-- C4 (witness): a concrete third repeat of `VISION_CLICK` pauses the
loop, and a fresh key resets the counter. -/
theorem runloop_oscillation_pause_witness :
    decisionPassesSchema dOsc = true ∧
    iterate "task" [] envOsc stateOsc
      = (.ret ⟨false, oscMsg dOsc.action.typeName 3, none, some .CONFIRM, some true⟩,
         none) ∧
    (oscillationStep "X:" stateW).repeatedActionCount = 0 :=
  ⟨by decide,
    (runloop_oscillation_pause "task" [] envOsc stateOsc stateOsc dOsc 0 "X:" stateW
      (by decide) (by decide) (by decide) (by decide) (by decide) (by decide)
      (by decide)).1,
    (runloop_oscillation_pause "task" [] envOsc stateOsc stateOsc dOsc 0 "X:" stateW
      (by decide) (by decide) (by decide) (by decide) (by decide) (by decide)
      (by decide)).2⟩

/-! ## Claim C10: scan ids never feed the click heuristics -/

theorem startsWithL_append (p rest : List Char) : startsWithL p (p ++ rest) = true := by
  induction p with
  | nil => rfl
  | cons c cs ih => simp [startsWithL, ih]

theorem toList_append (a b : String) : (a ++ b).toList = a.toList ++ b.toList := by
  cases a with
  | mk la => cases b with
    | mk lb => rfl

theorem startsWithL_cons_iff (p : Char) (ps l : List Char) :
    startsWithL (p :: ps) l = true ↔ ∃ t, l = p :: t ∧ startsWithL ps t = true := by
  cases l with
  | nil => simp [startsWithL]
  | cons x xs =>
    simp only [startsWithL]
    by_cases hpx : p = x
    · subst hpx
      simp
    · simp only [if_neg hpx]
      constructor
      · intro hcontra
        exact absurd hcontra (by simp)
      · rintro ⟨t, ht, _⟩
        injection ht with h1 _
        exact absurd h1.symm hpx

/-- An id beginning with `element-` matches none of the heuristic
prefixes. -/
theorem element_id_not_clickable (s : String) (h : strStarts s "element-" = true) :
    (strStarts s "link-" || strStarts s "button-" || strStarts s "role-") = false := by
  unfold strStarts at h ⊢
  have he : ("element-" : String).toList = 'e' :: "lement-".toList := rfl
  rw [he, startsWithL_cons_iff] at h
  obtain ⟨t, ht, _⟩ := h
  have hl : ("link-" : String).toList = 'l' :: "ink-".toList := rfl
  have hb : ("button-" : String).toList = 'b' :: "utton-".toList := rfl
  have hr : ("role-" : String).toList = 'r' :: "ole-".toList := rfl
  rw [ht, hl, hb, hr]
  simp only [Bool.or_eq_false_iff]
  refine ⟨⟨?_, ?_⟩, ?_⟩ <;>
    · rw [Bool.eq_false_iff]
      intro hcontra
      rw [startsWithL_cons_iff] at hcontra
      obtain ⟨t2, ht2, _⟩ := hcontra
      injection ht2 with h1 _
      exact absurd h1 (by decide)

/-- Every id a scan emits begins with `element-`. -/
theorem scanPage_ids_element (uuid : Nat → String) (es : List RawElement) :
    ∀ ctr, (scanPage uuid ctr es).1.all (fun r => strStarts r.id "element-") = true := by
  induction es with
  | nil => intro ctr; rfl
  | cons e es ih =>
    intro ctr
    unfold scanPage
    split
    · exact ih ctr
    · split
      · exact ih ctr
      · split
        · exact ih ctr
        · split
          · exact ih ctr
          · simp only [List.all_cons, ih (ctr + 1), Bool.and_true]
            unfold strStarts
            rw [toList_append]
            exact startsWithL_append _ _

theorem heuristicFirstLink_none_of_no_links (tl : String) (regions : List Region)
    (h : regions.filter (fun r => strStarts r.id "link-") = []) :
    heuristicFirstLink tl regions = none := by
  unfold heuristicFirstLink
  rw [h]
  split <;> rfl

theorem heuristicClick_none_of_no_clickables (tl : String) (regions : List Region)
    (h : regions.filter (fun r =>
      strStarts r.id "link-" || strStarts r.id "button-" || strStarts r.id "role-") = []) :
    heuristicClick tl regions = none := by
  unfold heuristicClick
  rw [h]
  split <;> rfl

/-- C10.  Every region id `scanPage` produces begins with `element-`,
and consequently the heuristic layer of `decide` (LLM path null) never
emits a `VISION_CLICK` from a scanned region list: the click branches
only consider ids beginning with `link-`, `button-` or `role-`. -/
theorem decide_no_heuristic_vision_click (task url : String) (cf ctr : Nat)
    (uuid : Nat → String) (es : List RawElement) :
    ((scanPage uuid ctr es).1.all (fun r => strStarts r.id "element-")) = true ∧
    ((decideF none task (scanPage uuid ctr es).1 url cf).1.action).isVISION_CLICK
      = false := by
  have hall := scanPage_ids_element uuid es ctr
  refine ⟨hall, ?_⟩
  have hmem : ∀ r ∈ (scanPage uuid ctr es).1, strStarts r.id "element-" = true := by
    intro r hr
    exact List.all_eq_true.mp hall r hr
  have hfilter1 : (scanPage uuid ctr es).1.filter (fun r => strStarts r.id "link-") = [] := by
    rw [List.filter_eq_nil_iff]
    intro r hr
    have := element_id_not_clickable r.id (hmem r hr)
    simp only [Bool.or_eq_false_iff] at this
    simp [this.1.1]
  have hfilter2 : (scanPage uuid ctr es).1.filter (fun r =>
      strStarts r.id "link-" || strStarts r.id "button-" || strStarts r.id "role-") = [] := by
    rw [List.filter_eq_nil_iff]
    intro r hr
    simp [element_id_not_clickable r.id (hmem r hr)]
  simp only [decideF, heuristicFirstLink_none_of_no_links _ _ hfilter1,
    heuristicClick_none_of_no_clickables _ _ hfilter2]
  split
  · rfl
  · split
    · rfl
    · split
      · rfl
      · rfl

end Uniq
